import Mathlib

set_option maxRecDepth 8000

/-! Shallow embedding of the cmsdata-client library (src/index.js).

JavaScript dynamic values are modelled explicitly:
- a possibly-absent object property is an `Option` (`none` = `undefined`);
- JS template-literal stringification maps `undefined` to the text "undefined";
- the header values handled by the client are either a string or `null`
  (`JsVal` below), and JS truthiness is modelled by `JsVal.truthy`;
- the external `JSON.parse` collaborator is modelled by `jsonParse` below
  (string escapes and non-integer numerals are left out of the model; no
  input considered here uses them, and on such inputs the model errs on the
  side of failing, like a malformed document). -/

/-- JSON values, as produced by the JS `JSON.parse` collaborator. -/
inductive Json where
  | null : Json
  | bool : Bool → Json
  | num : Int → Json
  | str : String → Json
  | arr : List Json → Json
  | obj : List (String × Json) → Json

/-- Character-list version of "pat is a leading segment of s". -/
def startsWithL : List Char → List Char → Bool
  | [], _ => true
  | _ :: _, [] => false
  | a :: as, b :: bs => a == b && startsWithL as bs

/-- Character-list substring search. -/
def hasSubL (pat : List Char) : List Char → Bool
  | [] => startsWithL pat []
  | c :: cs => startsWithL pat (c :: cs) || hasSubL pat cs

/-- String `s` has `pat` as a contiguous substring. -/
def strContainsSub (s pat : String) : Bool := hasSubL pat.toList s.toList

/-- Drop leading JSON whitespace. -/
def skipWsL : List Char → List Char
  | [] => []
  | c :: cs =>
    if c == ' ' || c == '\n' || c == '\t' || c == '\r' then skipWsL cs
    else c :: cs

/-- Parse the remainder of a JSON string literal (opening quote consumed).
The model supports no escape sequences; none of the inputs involved use them. -/
def parseStrLit : List Char → Except String (List Char × List Char)
  | [] => .error "Unterminated string in JSON"
  | c :: cs =>
    if c == '"' then .ok ([], cs)
    else if c == '\\' then .error "Unsupported escape in JSON model"
    else
      match parseStrLit cs with
      | .ok (acc, rest) => .ok (c :: acc, rest)
      | .error e => .error e

/-- Split a leading run of decimal digits off a character list. -/
def takeDigits : List Char → List Char × List Char
  | [] => ([], [])
  | c :: cs =>
    if c.isDigit then
      match takeDigits cs with
      | (ds, rest) => (c :: ds, rest)
    else ([], c :: cs)

/-- Decimal digits to a natural number. -/
def digitsToNat (ds : List Char) : Nat :=
  ds.foldl (fun a c => a * 10 + (c.toNat - 48)) 0

/-- The left-brace character, written by code point. -/
def lbrace : Char := Char.ofNat 123

/-- The right-brace character, written by code point. -/
def rbrace : Char := Char.ofNat 125

mutual

/-- Parse one JSON value (fuel-indexed recursive descent). -/
def parseVal : Nat → List Char → Except String (Json × List Char)
  | 0, _ => .error "JSON model fuel exhausted"
  | fuel + 1, input =>
    match skipWsL input with
    | [] => .error "Unexpected end of JSON input"
    | c :: cs =>
      if c == lbrace then
        match parseObjRest fuel cs with
        | .ok (kvs, rest) => .ok (.obj kvs, rest)
        | .error e => .error e
      else if c == '[' then
        match parseArrRest fuel cs with
        | .ok (vs, rest) => .ok (.arr vs, rest)
        | .error e => .error e
      else if c == '"' then
        match parseStrLit cs with
        | .ok (acc, rest) => .ok (.str (String.mk acc), rest)
        | .error e => .error e
      else if c == 't' then
        if startsWithL ['r', 'u', 'e'] cs then .ok (.bool true, cs.drop 3)
        else .error "Unexpected token t in JSON"
      else if c == 'f' then
        if startsWithL ['a', 'l', 's', 'e'] cs then .ok (.bool false, cs.drop 4)
        else .error "Unexpected token f in JSON"
      else if c == 'n' then
        if startsWithL ['u', 'l', 'l'] cs then .ok (.null, cs.drop 3)
        else .error "Unexpected token n in JSON"
      else if c == '-' then
        match takeDigits cs with
        | ([], _) => .error "Unexpected token - in JSON"
        | (ds, rest) => .ok (.num (-(digitsToNat ds : Int)), rest)
      else if c.isDigit then
        match takeDigits (c :: cs) with
        | (ds, rest) => .ok (.num (digitsToNat ds : Int), rest)
      else .error ("Unexpected token " ++ String.mk [c] ++ " in JSON")

/-- Parse the remainder of a JSON array (opening bracket consumed). -/
def parseArrRest : Nat → List Char → Except String (List Json × List Char)
  | 0, _ => .error "JSON model fuel exhausted"
  | fuel + 1, input =>
    match skipWsL input with
    | ']' :: rest => .ok ([], rest)
    | other =>
      match parseVal fuel other with
      | .error e => .error e
      | .ok (v, rest) =>
        match parseArrTail fuel rest with
        | .ok (vs, rest2) => .ok (v :: vs, rest2)
        | .error e => .error e

/-- Parse array continuations: a close bracket or a comma and a value. -/
def parseArrTail : Nat → List Char → Except String (List Json × List Char)
  | 0, _ => .error "JSON model fuel exhausted"
  | fuel + 1, input =>
    match skipWsL input with
    | ']' :: rest => .ok ([], rest)
    | ',' :: rest =>
      match parseVal fuel rest with
      | .error e => .error e
      | .ok (v, rest2) =>
        match parseArrTail fuel rest2 with
        | .ok (vs, rest3) => .ok (v :: vs, rest3)
        | .error e => .error e
    | _ => .error "Expected comma or close bracket in JSON array"

/-- Parse one `key : value` member of a JSON object. -/
def parseMember : Nat → List Char → Except String ((String × Json) × List Char)
  | 0, _ => .error "JSON model fuel exhausted"
  | fuel + 1, input =>
    match skipWsL input with
    | '"' :: cs =>
      match parseStrLit cs with
      | .error e => .error e
      | .ok (k, rest) =>
        match skipWsL rest with
        | ':' :: rest2 =>
          match parseVal fuel rest2 with
          | .error e => .error e
          | .ok (v, rest3) => .ok ((String.mk k, v), rest3)
        | _ => .error "Expected colon in JSON object"
    | _ => .error "Expected string key in JSON object"

/-- Parse the remainder of a JSON object (opening brace consumed). -/
def parseObjRest : Nat → List Char → Except String (List (String × Json) × List Char)
  | 0, _ => .error "JSON model fuel exhausted"
  | fuel + 1, input =>
    match skipWsL input with
    | [] => .error "Unexpected end of JSON input"
    | c :: rest =>
      if c == rbrace then .ok ([], rest)
      else
        match parseMember fuel (c :: rest) with
        | .error e => .error e
        | .ok (kv, rest2) =>
          match parseObjTail fuel rest2 with
          | .ok (kvs, rest3) => .ok (kv :: kvs, rest3)
          | .error e => .error e

/-- Parse object continuations: a close brace or a comma and a member. -/
def parseObjTail : Nat → List Char → Except String (List (String × Json) × List Char)
  | 0, _ => .error "JSON model fuel exhausted"
  | fuel + 1, input =>
    match skipWsL input with
    | [] => .error "Unexpected end of JSON input"
    | c :: rest =>
      if c == rbrace then .ok ([], rest)
      else if c == ',' then
        match parseMember fuel rest with
        | .error e => .error e
        | .ok (kv, rest2) =>
          match parseObjTail fuel rest2 with
          | .ok (kvs, rest3) => .ok (kv :: kvs, rest3)
          | .error e => .error e
      else .error "Expected comma or close brace in JSON object"

end

/-- Model of the JS `JSON.parse(text)` collaborator: parse one value and
require only trailing whitespace after it. -/
def jsonParse (s : String) : Except String Json :=
  match parseVal (2 * s.length + 2) s.toList with
  | .error e => .error e
  | .ok (v, rest) =>
    match skipWsL rest with
    | [] => .ok v
    | _ => .error "Unexpected trailing characters in JSON"

/-- JS `String.prototype.split(',')` on character lists. -/
def splitOnCommaL : List Char → List (List Char)
  | [] => [[]]
  | c :: cs =>
    if c == ',' then [] :: splitOnCommaL cs
    else
      match splitOnCommaL cs with
      | [] => [[c]]
      | g :: gs => (c :: g) :: gs

/-- JS `s.split(',')` (src/index.js 96): "a,b,c" becomes ["a","b","c"], and
the empty string becomes [""]. -/
def jsSplitComma (s : String) : List String :=
  (splitOnCommaL s.toList).map String.mk

/-- JS `Array.prototype.join()` with its default "," separator; also the JS
`ToString` of an array of strings, as performed implicitly when the array is
passed to `JSON.parse` (src/index.js 96). -/
def jsJoinComma : List String → String
  | [] => ""
  | [s] => s
  | s :: s2 :: rest => s ++ "," ++ jsJoinComma (s2 :: rest)

/-- JS `ToString` of an array of strings: elements joined with ",". -/
def jsArrayToString (xs : List String) : String := jsJoinComma xs

/-- A JS value that is either a boolean, a string, or `null`; the shapes the
client's `isOutdated` and `lastModified` fields take (src/index.js 11-12 and
97-98). -/
inductive JsVal where
  | bool : Bool → JsVal
  | str : String → JsVal
  | null : JsVal

/-- JS truthiness for `JsVal`: `false`, the empty string and `null` are falsy. -/
def JsVal.truthy : JsVal → Bool
  | .bool b => b
  | .str s => !(s == "")
  | .null => false

/-- The body of `this.fetched.data`: a parsed JSON document or raw text
(src/index.js 104-111). -/
inductive JsData where
  | json : Json → JsData
  | text : String → JsData

/-- The `this.fetched` container (src/index.js 22-26). Its `data` field is
initialised by the JS expression `{} || ''`, which evaluates to the (truthy)
empty object. `fields` is whatever `JSON.parse` returned (src/index.js 96). -/
structure Fetched where
  metadata : Json
  fields : Json
  data : JsData

/-- The options object accepted by `createClient` (src/index.js 9, 13, 100):
both recognised properties may be absent. A caller passing no options at all
behaves like `⟨none, none⟩` (the code reads it with `options?.` and spreads
`undefined` harmlessly). -/
structure ClientOptions where
  output : Option String
  includeMetadata : Option Bool

/-- The `this.fetchOptions` object. The constructor (src/index.js 15-21)
populates `columns`, `filter`, `limit`, `resource` (and `includeMetadata` via
the spread of `options`); `filter()` (src/index.js 52-55) replaces the whole
object with one holding only `column` and `resource`. A property absent from
the current object is `none` (= JS `undefined`). -/
structure FetchOptions where
  columns : Option String
  filter : Option String
  limit : Option Int
  resource : Option String
  column : Option String
  includeMetadata : Option Bool

/-- The client instance state (src/index.js 9-27). -/
structure CMSClient where
  resourceId : String
  isOutdated : JsVal
  lastModified : JsVal
  type : String
  url : String
  fetchOptions : FetchOptions
  fetched : Fetched

/-- The `CMSClient` constructor (src/index.js 9-27). `options?.output || 'json'`
falls back to "json" when `output` is absent or falsy (the empty string). -/
def construct (resourceId : String) (options : ClientOptions) : CMSClient :=
  let type :=
    match options.output with
    | some s => if s == "" then "json" else s
    | none => "json"
  { resourceId := resourceId
    isOutdated := .bool false
    lastModified := .str ""
    type := type
    url := "https://data.cms.gov/resource/" ++ resourceId ++ "." ++ type
    fetchOptions :=
      { columns := some ""
        filter := some ""
        limit := some 0
        resource := some ""
        column := none
        includeMetadata := options.includeMetadata }
    fetched := { metadata := .obj [], fields := .arr [], data := .json (.obj []) } }

/-- The dynamic argument of `select` (src/index.js 33-43): a string, an array
of strings, or anything else (which the method ignores). -/
inductive SelectArg where
  | str : String → SelectArg
  | arr : List String → SelectArg
  | other : SelectArg

/-- `select` (src/index.js 33-43). `columns.join()` joins with "," by default. -/
def CMSClient.select (c : CMSClient) (columns : SelectArg) : CMSClient :=
  match columns with
  | .str s => { c with fetchOptions := { c.fetchOptions with columns := some s } }
  | .arr xs =>
    { c with fetchOptions :=
        { c.fetchOptions with columns := some (jsJoinComma xs) } }
  | .other => c

/-- `filter` (src/index.js 50-57). A JS exception leaves `this` untouched, so
the result pairs the outcome with the client state after the call (unchanged
on error). On success the method assigns a fresh object to `this.fetchOptions`
holding only `column` and `resource`. For string arguments `!column` is the
emptiness test. -/
def CMSClient.filter (c : CMSClient) (column resource : String) :
    Except String Unit × CMSClient :=
  if resource = "" ∨ column = "" then
    (.error "Missing params: include column & resource to be filtered", c)
  else
    (.ok (),
     { c with fetchOptions :=
        { columns := none
          filter := none
          limit := none
          resource := some resource
          column := some column
          includeMetadata := none } })

/-- `limit` (src/index.js 63-68); a falsy (zero) argument is a no-op. -/
def CMSClient.limit (c : CMSClient) (limitResource : Int) : CMSClient :=
  if limitResource ≠ 0 then
    { c with fetchOptions := { c.fetchOptions with limit := some limitResource } }
  else c

/-- JS `this.fetchOptions.limit > 0` (src/index.js 74): comparing `undefined`
with a number is false. -/
def limitGtZero : Option Int → Bool
  | some n => decide (0 < n)
  | none => false

/-- JS template-literal stringification of a possibly-undefined string. -/
def optToString : Option String → String
  | some s => s
  | none => "undefined"

/-- JS template-literal stringification of a possibly-undefined number. -/
def optIntToString : Option Int → String
  | some n => toString n
  | none => "undefined"

/-- JS `url[url.length - 1] === '?'` (src/index.js 83); on the empty string
the indexing yields `undefined`, which is not `'?'`. -/
def lastIsQmark (s : String) : Bool :=
  match s.toList.getLast? with
  | some c => c == '?'
  | none => false

/-- `_queryBuilder` (src/index.js 70-89), with the leading underscore dropped.
It appends to the stored `this.url` in place, exactly as the source does. Note
the JS comparisons `!== ''` are true of `undefined` properties. -/
def CMSClient.queryBuilder (c : CMSClient) : CMSClient :=
  let url := c.url ++ "?"
  let url :=
    if limitGtZero c.fetchOptions.limit then
      url ++ "$limit=" ++ optIntToString c.fetchOptions.limit
    else url
  let url :=
    if c.fetchOptions.filter ≠ some "" ∧ c.fetchOptions.resource ≠ some "" then
      url ++ "&" ++ optToString c.fetchOptions.column ++ "="
        ++ optToString c.fetchOptions.resource
    else url
  let url :=
    if c.fetchOptions.columns ≠ some "" then
      if lastIsQmark url then url ++ "$select=" ++ optToString c.fetchOptions.columns
      else url ++ "&$select=" ++ optToString c.fetchOptions.columns
    else url
  { c with url := url }

/-- A resolved response from the external HTTP collaborator: a header list
and a body consumable as text or JSON (spec section 6). -/
structure HttpResponse where
  headers : List (String × String)
  body : String

/-- Lower-casing by character map (structurally recursive, so that the kernel
can evaluate header lookups). -/
def toLowerS (s : String) : String := String.mk (s.toList.map Char.toLower)

/-- `headers.get(name)`: case-insensitive header lookup, `null` when absent. -/
def getHeader (r : HttpResponse) (name : String) : Option String :=
  (r.headers.find? (fun kv => toLowerS kv.1 == toLowerS name)).map (fun kv => kv.2)

/-- The JS value delivered by `headers.get`: a string, or `null` when absent. -/
def jsHeaderVal : Option String → JsVal
  | some s => .str s
  | none => .null

/-- The fields computation of src/index.js 96:
`JSON.parse(headers.get('x-soda2-fields').split(','))`. `split` on `null`
raises a TypeError; the split result (an array) is coerced to a string before
being parsed as JSON. -/
def jsFieldsParse (h? : Option String) : Except String Json :=
  match h? with
  | none => .error "TypeError: cannot read split of null"
  | some s => jsonParse (jsArrayToString (jsSplitComma s))

/-- The metadata endpoint URL (src/index.js 119). -/
def metadataUrl (resourceId : String) : String :=
  "https://data.cms.gov/api/views/metadata/v1/" ++ resourceId

/-- `_fetchResourceMetadata` (src/index.js 117-125), underscore dropped. The
environment `env` models the HTTP collaborator: the response or a network
failure for each URL. The second component of the result is the list of URLs
requested. -/
def CMSClient.fetchResourceMetadata (c : CMSClient)
    (env : String → Except String HttpResponse) :
    Except String CMSClient × List String :=
  match env (metadataUrl c.resourceId) with
  | .error e => (.error e, [metadataUrl c.resourceId])
  | .ok resp =>
    match jsonParse resp.body with
    | .error e => (.error e, [metadataUrl c.resourceId])
    | .ok j => (.ok { c with fetched := { c.fetched with metadata := j } },
                [metadataUrl c.resourceId])

/-- The body-parsing step of `_fetchResource` (src/index.js 104-111): raw text
for csv, `JSON.parse` otherwise. -/
def bodyStep (c : CMSClient) (resp : HttpResponse) : Except String CMSClient :=
  if c.type = "csv" then
    .ok { c with fetched := { c.fetched with data := .text resp.body } }
  else
    match jsonParse resp.body with
    | .error e => .error e
    | .ok j => .ok { c with fetched := { c.fetched with data := .json j } }

/-- `_fetchResource` (src/index.js 91-115), underscore dropped. Mirrors the
source order: primary request, fields-header parse, header reads, optional
metadata request, then body parse. Any failure is re-raised to the caller
(the `throw new Error(error)` wrapper preserves the message, modelled as the
propagated string). The trace component lists the URLs requested. -/
def CMSClient.fetchResource (c : CMSClient)
    (env : String → Except String HttpResponse) :
    Except String CMSClient × List String :=
  match env c.url with
  | .error e => (.error e, [c.url])
  | .ok resp =>
    match jsFieldsParse (getHeader resp "x-soda2-fields") with
    | .error e => (.error e, [c.url])
    | .ok fieldsVal =>
      let c2 : CMSClient :=
        { c with
          fetched := { c.fetched with fields := fieldsVal }
          isOutdated := jsHeaderVal (getHeader resp "x-soda2-data-out-of-date")
          lastModified := jsHeaderVal (getHeader resp "Last-Modified") }
      if c2.fetchOptions.includeMetadata = some true then
        match c2.fetchResourceMetadata env with
        | (.error e, t) => (.error e, c.url :: t)
        | (.ok c3, t) => (bodyStep c3 resp, c.url :: t)
      else
        (bodyStep c2 resp, [c.url])

/-- `get` (src/index.js 134-147). The guard `if (!this.fetched) throw ...` is
dead: `this.fetched` is always an (always-truthy) object, so it is elided.
The third component records whether the "Data is outdated" warning was
printed: exactly when `!this.isOutdated` after a successful fetch. -/
def CMSClient.get (c : CMSClient)
    (env : String → Except String HttpResponse) :
    Except String CMSClient × List String × Bool :=
  match (c.queryBuilder).fetchResource env with
  | (.error e, t) => (.error e, t, false)
  | (.ok c2, t) => (.ok c2, t, !(c2.isOutdated.truthy))

/-- `createClient` (src/index.js 154-157): for a string argument, the guard
rejects exactly the empty string. -/
def createClient (resourceId : String) (options : ClientOptions) :
    Except String CMSClient :=
  if resourceId = "" then .error ("Invalid argument: " ++ resourceId)
  else .ok (construct resourceId options)

/-- Observation helper: did an operation on clients succeed? -/
def isOkB : Except String CMSClient → Bool
  | .ok _ => true
  | .error _ => false

/-- Observation helper: the `data` field of a successful result. -/
def dataOf : Except String CMSClient → Option JsData
  | .ok c => some c.fetched.data
  | .error _ => none

/-- Observation helper: the composed URL of a successfully created client. -/
def urlOf : Except String CMSClient → Option String
  | .ok c => some c.queryBuilder.url
  | .error _ => none

/-- Observation helper: a successful JSON parse as a `data` value. -/
def jsonToData? : Except String Json → Option JsData
  | .ok j => some (.json j)
  | .error _ => none

/-- Observation helper: the message of a failed operation on clients. -/
def errOf : Except String CMSClient → Option String
  | .ok _ => none
  | .error e => some e

/-! Helper lemmas about the pipeline, shared by the claim theorems. -/

theorem strAppend_assoc (a b c : String) : a ++ b ++ c = a ++ (b ++ c) := by
  cases a with
  | mk da =>
    cases b with
    | mk db =>
      cases c with
      | mk dc =>
        show String.mk (da ++ db ++ dc) = String.mk (da ++ (db ++ dc))
        rw [List.append_assoc]

theorem queryBuilder_type (c : CMSClient) : (c.queryBuilder).type = c.type := rfl

theorem queryBuilder_fetchOptions (c : CMSClient) :
    (c.queryBuilder).fetchOptions = c.fetchOptions := rfl

theorem queryBuilder_resourceId (c : CMSClient) :
    (c.queryBuilder).resourceId = c.resourceId := rfl

theorem fetchResourceMetadata_ok_spec (c : CMSClient)
    (env : String → Except String HttpResponse) (c' : CMSClient) (t : List String)
    (h : c.fetchResourceMetadata env = (Except.ok c', t)) :
    c'.type = c.type ∧ c'.isOutdated = c.isOutdated ∧
    c'.fetchOptions = c.fetchOptions ∧ c'.fetched.data = c.fetched.data := by
  unfold CMSClient.fetchResourceMetadata at h
  cases he : env (metadataUrl c.resourceId) with
  | error e => simp only [he] at h; simp at h
  | ok resp =>
    simp only [he] at h
    cases hj : jsonParse resp.body with
    | error e => simp only [hj] at h; simp at h
    | ok j =>
      simp only [hj, Prod.mk.injEq, Except.ok.injEq] at h
      obtain ⟨h1, -⟩ := h
      subst h1
      exact ⟨rfl, rfl, rfl, rfl⟩

theorem bodyStep_ok_spec (c : CMSClient) (resp : HttpResponse) (c' : CMSClient)
    (h : bodyStep c resp = Except.ok c') :
    c'.type = c.type ∧ c'.isOutdated = c.isOutdated ∧
    (c.type = "csv" → c'.fetched.data = JsData.text resp.body) ∧
    (c.type ≠ "csv" →
      ∃ j, jsonParse resp.body = Except.ok j ∧ c'.fetched.data = JsData.json j) := by
  unfold bodyStep at h
  split at h
  next hcsv =>
    simp only [Except.ok.injEq] at h
    subst h
    exact ⟨rfl, rfl, fun _ => rfl, fun hne => absurd hcsv hne⟩
  next hne =>
    cases hj : jsonParse resp.body with
    | error e => simp only [hj] at h; simp at h
    | ok j =>
      simp only [hj, Except.ok.injEq] at h
      subst h
      exact ⟨rfl, rfl, fun hcsv => absurd hcsv hne, fun _ => ⟨j, rfl, rfl⟩⟩

theorem fetchResource_ok_spec (c : CMSClient)
    (env : String → Except String HttpResponse) (resp : HttpResponse)
    (c' : CMSClient) (t : List String)
    (hresp : env c.url = Except.ok resp)
    (h : c.fetchResource env = (Except.ok c', t)) :
    c'.type = c.type ∧
    c'.isOutdated = jsHeaderVal (getHeader resp "x-soda2-data-out-of-date") ∧
    (c.type = "csv" → c'.fetched.data = JsData.text resp.body) ∧
    (c.type ≠ "csv" →
      ∃ j, jsonParse resp.body = Except.ok j ∧ c'.fetched.data = JsData.json j) := by
  unfold CMSClient.fetchResource at h
  simp only [hresp] at h
  cases hf : jsFieldsParse (getHeader resp "x-soda2-fields") with
  | error e => simp only [hf] at h; simp at h
  | ok fv =>
    simp only [hf] at h
    split at h
    · split at h
      next e t2 hm => simp at h
      next c3 t2 hm =>
        simp only [Prod.mk.injEq] at h
        obtain ⟨hb, -⟩ := h
        have hmeta := fetchResourceMetadata_ok_spec _ env c3 t2 hm
        have hbody := bodyStep_ok_spec c3 resp _ hb
        refine ⟨hbody.1.trans hmeta.1, hbody.2.1.trans hmeta.2.1, ?_, ?_⟩
        · intro hcsv
          exact hbody.2.2.1 (hmeta.1.trans hcsv)
        · intro hne
          exact hbody.2.2.2 (fun hx => hne (hmeta.1.symm.trans hx))
    · simp only [Prod.mk.injEq] at h
      obtain ⟨hb, -⟩ := h
      exact bodyStep_ok_spec _ resp _ hb

theorem get_ok_spec (c : CMSClient)
    (env : String → Except String HttpResponse) (resp : HttpResponse)
    (c' : CMSClient) (t : List String) (w : Bool)
    (hresp : env c.queryBuilder.url = Except.ok resp)
    (hget : c.get env = (Except.ok c', t, w)) :
    c'.type = c.type ∧
    c'.isOutdated = jsHeaderVal (getHeader resp "x-soda2-data-out-of-date") ∧
    w = !(jsHeaderVal (getHeader resp "x-soda2-data-out-of-date")).truthy ∧
    (c.type = "csv" → c'.fetched.data = JsData.text resp.body) ∧
    (c.type ≠ "csv" →
      ∃ j, jsonParse resp.body = Except.ok j ∧ c'.fetched.data = JsData.json j) := by
  unfold CMSClient.get at hget
  cases hfr : (c.queryBuilder).fetchResource env with
  | mk r t2 =>
    rw [hfr] at hget
    cases r with
    | error e => simp at hget
    | ok c2 =>
      simp only [Prod.mk.injEq, Except.ok.injEq] at hget
      obtain ⟨h1, -, h3⟩ := hget
      subst h1
      have hs := fetchResource_ok_spec c.queryBuilder env resp c2 t2 hresp hfr
      exact ⟨hs.1, hs.2.1, by rw [← h3, hs.2.1], hs.2.2.1, hs.2.2.2⟩

theorem fetchResource_trace_no_metadata (c : CMSClient)
    (env : String → Except String HttpResponse)
    (h : c.fetchOptions.includeMetadata ≠ some true) :
    (c.fetchResource env).2 = [c.url] := by
  unfold CMSClient.fetchResource
  cases he : env c.url with
  | error e => simp [he]
  | ok resp =>
    simp only [he]
    cases hf : jsFieldsParse (getHeader resp "x-soda2-fields") with
    | error e => simp [hf]
    | ok fv =>
      simp only [hf]
      rw [if_neg h]

theorem get_trace_no_metadata (c : CMSClient)
    (env : String → Except String HttpResponse)
    (h : c.fetchOptions.includeMetadata ≠ some true) :
    (c.get env).2.1 = [c.queryBuilder.url] := by
  unfold CMSClient.get
  have ht := fetchResource_trace_no_metadata c.queryBuilder env h
  cases hfr : (c.queryBuilder).fetchResource env with
  | mk r t2 =>
    rw [hfr] at ht
    simp only at ht
    cases r with
    | error e => simpa using ht
    | ok c2 => simpa using ht

/-! Concrete fixtures used by witnesses and counterexamples. -/

/-- Default construction options (no output format, no metadata flag). -/
def optsPlain : ClientOptions := ⟨none, none⟩

/-- Options with the metadata flag set. -/
def optsMeta : ClientOptions := ⟨none, some true⟩

/-- Options selecting csv output. -/
def optsCsv : ClientOptions := ⟨some "csv", none⟩

/-- An HTTP collaborator whose every request fails. -/
def envDown : String → Except String HttpResponse := fun _ => .error "network down"

/-- The response of spec section 8: fields header "a,b,c", JSON array body. -/
def respFields : HttpResponse :=
  ⟨[("x-soda2-fields", "a,b,c")], "[\x7b\"a\":1\x7d]"⟩

/-- A collaborator answering every request with `respFields`. -/
def envFields : String → Except String HttpResponse := fun _ => .ok respFields

/-- A csv response whose fields header survives the code's parse and whose
out-of-date header is present (truthy). -/
def respCsv : HttpResponse :=
  ⟨[("x-soda2-fields", "[1]"), ("x-soda2-data-out-of-date", "true")], "col1;col2"⟩

/-- A collaborator answering every request with `respCsv`. -/
def envCsv : String → Except String HttpResponse := fun _ => .ok respCsv

/-- A json response whose fields header survives the code's parse and which
carries no out-of-date header. -/
def respJson : HttpResponse := ⟨[("x-soda2-fields", "[1]")], "[\x7b\"a\":1\x7d]"⟩

/-- A collaborator answering every request with `respJson`. -/
def envJson : String → Except String HttpResponse := fun _ => .ok respJson

/-- C1: the claim FAILS on the code. After `limit(5)`, the `filter` call
replaces the whole `fetchOptions` object (src/index.js 52-55), discarding the
stored limit, so composing the URL for the sequence limit(5), filter("state",
"CA"), select("name") yields "...json?&state=CA&$select=name": the required
text "$limit=5&state=CA&$select=name" does not occur (no "$limit" at all). -/
theorem limit_filter_select_composed_url :
    ((((construct "x" optsPlain).limit 5).filter "state" "CA").2.select
        (SelectArg.str "name")).queryBuilder.url =
      "https://data.cms.gov/resource/x.json?&state=CA&$select=name" ∧
    strContainsSub "https://data.cms.gov/resource/x.json?&state=CA&$select=name"
      "$limit=5&state=CA&$select=name" = false ∧
    strContainsSub "https://data.cms.gov/resource/x.json?&state=CA&$select=name"
      "$limit" = false :=
  ⟨rfl, rfl, rfl⟩

/-- C3: the claim FAILS on the code. `queryBuilder` appends to the stored
`this.url` in place, so running it twice with unchanged state duplicates the
"?" and every emitted parameter instead of reproducing the same URL. -/
theorem queryBuilder_not_idempotent :
    ((construct "x" optsPlain).limit 5).queryBuilder.url =
      "https://data.cms.gov/resource/x.json?$limit=5" ∧
    ((construct "x" optsPlain).limit 5).queryBuilder.queryBuilder.url =
      "https://data.cms.gov/resource/x.json?$limit=5?$limit=5" ∧
    (((construct "x" optsPlain).limit 5).queryBuilder.queryBuilder.url ==
      ((construct "x" optsPlain).limit 5).queryBuilder.url) = false :=
  ⟨rfl, rfl, rfl⟩

/-- C4: the claim FAILS on the code. With the fields header "a,b,c" the code
runs `JSON.parse(header.split(','))`; the split array is coerced back to the
string "a,b,c", which is not valid JSON, so `get()` rejects instead of
resolving. The body itself is well-formed JSON and a bare split of the header
would have produced ["a","b","c"], so the failure is in the fields parse. -/
theorem get_rejects_on_fields_header_parse :
    errOf ((construct "x" optsPlain).get envFields).1 =
      some "Unexpected token a in JSON" ∧
    jsonParse "[\x7b\"a\":1\x7d]" =
      Except.ok (Json.arr [Json.obj [("a", Json.num 1)]]) ∧
    (getHeader respFields "x-soda2-fields").map jsSplitComma =
      some ["a", "b", "c"] :=
  ⟨rfl, rfl, rfl⟩

/-- C2 counterexample: after a successful `filter` with no subsequent
`select`, the URL that `get` requests still carries a `$select` parameter
(with the text "undefined"), refuting "emits $select only if select is called
again afterwards". -/
theorem filter_select_undefined_counterexample :
    (((construct "x" optsMeta).filter "state" "CA").2.get envDown).2.1 =
      ["https://data.cms.gov/resource/x.json?&state=CA&$select=undefined"] ∧
    strContainsSub
      "https://data.cms.gov/resource/x.json?&state=CA&$select=undefined"
      "$select=" = true :=
  ⟨rfl, rfl⟩

/-- C2 (amended): a successful `filter col val` discards every previously
configured option (columns, prior filter, limit and the includeMetadata flag
are all absent afterwards); a subsequent `get` emits no `$limit` parameter
and never performs the metadata request, but it does emit a `$select`
parameter with the text "undefined" unless `select` is called again (the
discarded columns property passes the non-empty check and stringifies as
"undefined"). The composed URL is exactly the old URL plus
"?&col=val" plus the `$select=undefined` parameter, and the only request
`get` makes is that URL. -/
theorem filter_discards_config (c : CMSClient) (col val : String)
    (env : String → Except String HttpResponse)
    (hc : col ≠ "") (hv : val ≠ "") :
    (c.filter col val).1 = Except.ok () ∧
    (c.filter col val).2.fetchOptions =
      { columns := none, filter := none, limit := none,
        resource := some val, column := some col, includeMetadata := none } ∧
    (c.filter col val).2.queryBuilder.url =
      (c.url ++ "?" ++ "&" ++ col ++ "=" ++ val) ++
        (if lastIsQmark (c.url ++ "?" ++ "&" ++ col ++ "=" ++ val) then
          "$select=undefined"
         else "&$select=undefined") ∧
    ((c.filter col val).2.get env).2.1 = [(c.filter col val).2.queryBuilder.url] := by
  have hcond : ¬ (val = "" ∨ col = "") := by
    rintro (hx | hx)
    · exact hv hx
    · exact hc hx
  have hcl : (c.filter col val).2 =
      { c with fetchOptions :=
          { columns := none, filter := none, limit := none,
            resource := some val, column := some col, includeMetadata := none } } := by
    unfold CMSClient.filter
    rw [if_neg hcond]
  have h1 : (c.filter col val).1 = Except.ok () := by
    unfold CMSClient.filter
    rw [if_neg hcond]
  refine ⟨h1, by rw [hcl], ?_, ?_⟩
  · rw [hcl]
    simp only [CMSClient.queryBuilder, limitGtZero, optToString, hv]
    simp [hv]
    split <;> rw [strAppend_assoc] <;> rfl
  · rw [hcl]
    exact get_trace_no_metadata _ env (by simp)

/-- Witness for the amended C2 at a concrete client constructed with the
metadata flag set: filter succeeds, the configuration keeps only the
column/value pair, and the only URL `get` requests carries no `$limit` but
does carry `$select=undefined`. -/
theorem filter_discards_config_witness :
    ((construct "x" optsMeta).filter "state" "CA").1 = Except.ok () ∧
    ((construct "x" optsMeta).filter "state" "CA").2.fetchOptions =
      { columns := none, filter := none, limit := none,
        resource := some "CA", column := some "state", includeMetadata := none } ∧
    (((construct "x" optsMeta).filter "state" "CA").2.get envDown).2.1 =
      ["https://data.cms.gov/resource/x.json?&state=CA&$select=undefined"] := by
  have h := filter_discards_config (construct "x" optsMeta) "state" "CA" envDown
    (by decide) (by decide)
  refine ⟨h.1, h.2.1, ?_⟩
  rw [h.2.2.2]
  rfl

/-- C5: a failing primary request makes `get` reject with that error, and the
only URL ever requested is the primary one - the metadata endpoint is never
fetched, whatever the configuration (includeMetadata included); no result is
produced. -/
theorem get_rejects_on_primary_failure (c : CMSClient)
    (env : String → Except String HttpResponse) (err : String)
    (h : env c.queryBuilder.url = Except.error err) :
    (c.get env).1 = Except.error err ∧ (c.get env).2.1 = [c.queryBuilder.url] := by
  unfold CMSClient.get CMSClient.fetchResource
  simp only [h]
  trivial

/-- Witness for C5: a client constructed with includeMetadata set, against a
collaborator that fails every request. -/
theorem get_rejects_on_primary_failure_witness :
    ((construct "x" optsMeta).get envDown).1 = Except.error "network down" ∧
    ((construct "x" optsMeta).get envDown).2.1 =
      ["https://data.cms.gov/resource/x.json?"] := by
  have h := get_rejects_on_primary_failure (construct "x" optsMeta) envDown
    "network down" rfl
  exact ⟨h.1, h.2.trans (by decide)⟩

/-- C6: `filter` fails with the missing-params error when either argument is
empty and then leaves the client (its filter state included) unchanged; when
both are non-empty it succeeds and stores the new column/value pair. -/
theorem filter_validates_and_replaces (c : CMSClient) (col val : String) :
    ((col = "" ∨ val = "") →
      (c.filter col val).1 =
        Except.error "Missing params: include column & resource to be filtered" ∧
      (c.filter col val).2 = c) ∧
    (col ≠ "" → val ≠ "" →
      (c.filter col val).1 = Except.ok () ∧
      (c.filter col val).2.fetchOptions.column = some col ∧
      (c.filter col val).2.fetchOptions.resource = some val) := by
  constructor
  · intro h
    have hcond : val = "" ∨ col = "" := h.elim Or.inr Or.inl
    unfold CMSClient.filter
    rw [if_pos hcond]
    exact ⟨rfl, rfl⟩
  · intro hc hv
    have hcond : ¬ (val = "" ∨ col = "") := by
      rintro (hx | hx)
      · exact hv hx
      · exact hc hx
    unfold CMSClient.filter
    rw [if_neg hcond]
    exact ⟨rfl, rfl, rfl⟩

/-- Witness for C6: an empty column fails and leaves the client unchanged;
two non-empty arguments succeed and store the pair. -/
theorem filter_validates_and_replaces_witness :
    (((construct "x" optsPlain).filter "" "val").1 =
        Except.error "Missing params: include column & resource to be filtered" ∧
      ((construct "x" optsPlain).filter "" "val").2 = construct "x" optsPlain) ∧
    (((construct "x" optsPlain).filter "a" "b").1 = Except.ok () ∧
      ((construct "x" optsPlain).filter "a" "b").2.fetchOptions.column = some "a" ∧
      ((construct "x" optsPlain).filter "a" "b").2.fetchOptions.resource = some "b") :=
  ⟨(filter_validates_and_replaces (construct "x" optsPlain) "" "val").1 (Or.inl rfl),
   (filter_validates_and_replaces (construct "x" optsPlain) "a" "b").2
     (by decide) (by decide)⟩

/-- C7: for every valid (non-empty) identifier, the factory succeeds and the
fresh client's composed URL is the base resource URL (json default format)
followed by a single trailing question mark and no query parameters. -/
theorem createClient_fresh_url (id : String) (m : Option Bool) (h : id ≠ "") :
    urlOf (createClient id { output := none, includeMetadata := m }) =
      some ("https://data.cms.gov/resource/" ++ id ++ "." ++ "json" ++ "?") := by
  unfold createClient
  rw [if_neg h]
  simp only [urlOf]
  unfold construct CMSClient.queryBuilder
  simp [limitGtZero, optToString]

/-- Witness for C7 at the identifier "abc". -/
theorem createClient_fresh_url_witness :
    urlOf (createClient "abc" { output := none, includeMetadata := none }) =
      some "https://data.cms.gov/resource/abc.json?" := by
  have h := createClient_fresh_url "abc" none (by decide)
  exact h.trans (by decide)

/-- C8: selecting a list of columns stores exactly the comma-join of the
list, so it is indistinguishable from selecting the joined string: the
resulting client states, and hence the composed query strings, coincide. In
particular select(["a","b"]) agrees with select("a,b"). -/
theorem select_list_eq_select_joined (c : CMSClient) (xs : List String) :
    c.select (SelectArg.arr xs) = c.select (SelectArg.str (jsJoinComma xs)) ∧
    (c.select (SelectArg.arr xs)).queryBuilder.url =
      (c.select (SelectArg.str (jsJoinComma xs))).queryBuilder.url ∧
    jsJoinComma ["a", "b"] = "a,b" :=
  ⟨rfl, rfl, rfl⟩

/-- C9: for a successful `get`, the result's `data` is the raw response text
when the output format is csv, and the JSON-parsed body otherwise. -/
theorem get_data_format (c : CMSClient)
    (env : String → Except String HttpResponse) (resp : HttpResponse)
    (hresp : env c.queryBuilder.url = Except.ok resp)
    (hok : isOkB (c.get env).1 = true) :
    (c.type = "csv" → dataOf (c.get env).1 = some (JsData.text resp.body)) ∧
    (c.type ≠ "csv" → dataOf (c.get env).1 = jsonToData? (jsonParse resp.body)) := by
  cases h1 : (c.get env).1 with
  | error e => rw [h1] at hok; simp [isOkB] at hok
  | ok c' =>
    have hget : c.get env = (Except.ok c', (c.get env).2.1, (c.get env).2.2) := by
      rw [← h1]
    have hs := get_ok_spec c env resp c' _ _ hresp hget
    constructor
    · intro hcsv
      simp [dataOf, hs.2.2.2.1 hcsv]
    · intro hne
      obtain ⟨j, hj, hd⟩ := hs.2.2.2.2 hne
      simp [dataOf, hd, jsonToData?, hj]

/-- Witness for C9: a csv client receives the raw body text, a json client
the parsed body. -/
theorem get_data_format_witness :
    dataOf ((construct "x" optsCsv).get envCsv).1 = some (JsData.text "col1;col2") ∧
    dataOf ((construct "x" optsPlain).get envJson).1 =
      jsonToData? (jsonParse "[\x7b\"a\":1\x7d]") := by
  constructor
  · exact (get_data_format (construct "x" optsCsv) envCsv respCsv rfl rfl).1 rfl
  · exact (get_data_format (construct "x" optsPlain) envJson respJson rfl rfl).2
      (by decide)

/-- C10: on a successful `get`, the "Data is outdated" warning fires exactly
when the out-of-date header value read from the response is falsy (absent or
the empty string); a truthy header value suppresses it. -/
theorem get_warns_iff_header_falsy (c : CMSClient)
    (env : String → Except String HttpResponse) (resp : HttpResponse)
    (hresp : env c.queryBuilder.url = Except.ok resp)
    (hok : isOkB (c.get env).1 = true) :
    (c.get env).2.2 =
      !(jsHeaderVal (getHeader resp "x-soda2-data-out-of-date")).truthy := by
  cases h1 : (c.get env).1 with
  | error e => rw [h1] at hok; simp [isOkB] at hok
  | ok c' =>
    have hget : c.get env = (Except.ok c', (c.get env).2.1, (c.get env).2.2) := by
      rw [← h1]
    exact (get_ok_spec c env resp c' _ _ hresp hget).2.2.1

/-- Witness for C10: with no out-of-date header the warning fires; with the
header "true" (truthy) it does not. -/
theorem get_warns_iff_header_falsy_witness :
    ((construct "x" optsPlain).get envJson).2.2 = true ∧
    ((construct "x" optsCsv).get envCsv).2.2 = false := by
  constructor
  · exact (get_warns_iff_header_falsy (construct "x" optsPlain) envJson respJson
      rfl rfl).trans (by decide)
  · exact (get_warns_iff_header_falsy (construct "x" optsCsv) envCsv respCsv
      rfl rfl).trans (by decide)
